import Mathlib

/-!
Verification of the credential/secret-derivation utility set of the `fimbu`
framework (`src/fimbu/utils/crypto.py`) against its specification.

Bytes are modelled as `Nat` values below 256 and byte strings as `List Nat`.
Python strings appear either as Lean `String` or as `List Char`.  The hash
primitives of the `hashlib` module are external collaborators (spec §1); they
are modelled abstractly as a structure `HashFn` carrying the hash map, its
digest size and its block size, and theorems are parametric in the
implementation assigned to each algorithm name.
-/

namespace Fimbu

/-- UTF-8 encoding of a single character, as a list of byte values.
Models CPython `str.encode()` for one code point. -/
def utf8Bytes (c : Char) : List Nat :=
  let n := c.toNat
  if n < 0x80 then [n]
  else if n < 0x800 then [0xC0 + n / 64, 0x80 + n % 64]
  else if n < 0x10000 then
    [0xE0 + n / 4096, 0x80 + (n / 64) % 64, 0x80 + n % 64]
  else
    [0xF0 + n / 262144, 0x80 + (n / 4096) % 64, 0x80 + (n / 64) % 64, 0x80 + n % 64]

/-- UTF-8 encoding of a string: models CPython `str.encode()`. -/
def strEncode (s : String) : List Nat :=
  s.data.flatMap utf8Bytes

/-- A Python value that the crypto module canonicalizes to bytes:
either a text string or an already-bytes value. -/
inductive PyData where
  | str (s : String)
  | bytes (b : List Nat)
deriving DecidableEq, Repr

/-- Modelled from the spec: `force_bytes` (imported from
`fimbu.utils.encoding`, a module not among the reviewed sources) "converts
operands to a canonical byte representation" (spec §4.2, §4.3 step 2):
a text string is UTF-8 encoded, a bytes value passes through unchanged. -/
def force_bytes : PyData → List Nat
  | .str s => strEncode s
  | .bytes b => b

/-- An external hash primitive (spec §1: hash primitives are consumed, not
reimplemented): the hash function on byte strings, its digest size and its
block size in bytes. -/
structure HashFn where
  hash : List Nat → List Nat
  digestSize : Nat
  blockSize : Nat

/-- A hash implementation is well formed when every digest it produces has
exactly `digestSize` bytes. -/
def HashFn.WF (H : HashFn) : Prop :=
  ∀ m, (H.hash m).length = H.digestSize

/-- HMAC as computed by Python `hmac.new(key, msg, digestmod)` (RFC 2104):
a key longer than the block size is first hashed, the key is zero-padded to
the block size, and the digest is `H((key ⊕ opad) ++ H((key ⊕ ipad) ++ msg))`
with `ipad = 0x36` and `opad = 0x5c`. -/
def hmacNew (H : HashFn) (key msg : List Nat) : List Nat :=
  let key := if H.blockSize < key.length then H.hash key else key
  let key := key ++ List.replicate (H.blockSize - key.length) 0
  H.hash ((key.map (Nat.xor 0x5c)) ++ H.hash ((key.map (Nat.xor 0x36)) ++ msg))

/-- The byte value of the URL-safe base64 character for a 6-bit value:
`A`–`Z`, `a`–`z`, `0`–`9`, `-`, `_`. -/
def b64urlChar (n : Nat) : Nat :=
  if n < 26 then 65 + n
  else if n < 52 then 97 + (n - 26)
  else if n < 62 then 48 + (n - 52)
  else if n = 62 then 45
  else 95

/-- The 6-bit value of a URL-safe base64 character byte (inverse of
`b64urlChar`; unknown bytes map to 0). -/
def b64urlVal (c : Nat) : Nat :=
  if 65 ≤ c ∧ c ≤ 90 then c - 65
  else if 97 ≤ c ∧ c ≤ 122 then c - 71
  else if 48 ≤ c ∧ c ≤ 57 then c + 4
  else if c = 45 then 62
  else if c = 95 then 63
  else 0

/-- Models Python `base64.urlsafe_b64encode`: bytes in, base64 bytes out,
padded with `=` (byte 61) to a multiple of four characters. -/
def urlsafeB64encode : List Nat → List Nat
  | [] => []
  | [a] => [b64urlChar (a / 4), b64urlChar ((a % 4) * 16), 61, 61]
  | [a, b] => [b64urlChar (a / 4), b64urlChar ((a % 4) * 16 + b / 16),
               b64urlChar ((b % 16) * 4), 61]
  | a :: b :: c :: rest =>
      [b64urlChar (a / 4), b64urlChar ((a % 4) * 16 + b / 16),
       b64urlChar ((b % 16) * 4 + c / 64), b64urlChar (c % 64)]
      ++ urlsafeB64encode rest

/-- Models Python `base64.urlsafe_b64decode` on the outputs of
`urlsafe_b64encode`: groups of four base64 bytes back to three bytes, with
`=` padding (byte 61) terminating the input. -/
def urlsafeB64decode : List Nat → List Nat
  | a :: b :: 61 :: 61 :: [] =>
      [(b64urlVal a) * 4 + (b64urlVal b) / 16]
  | a :: b :: c :: 61 :: [] =>
      [(b64urlVal a) * 4 + (b64urlVal b) / 16,
       (b64urlVal b % 16) * 16 + (b64urlVal c) / 4]
  | a :: b :: c :: d :: rest =>
      [(b64urlVal a) * 4 + (b64urlVal b) / 16,
       (b64urlVal b % 16) * 16 + (b64urlVal c) / 4,
       (b64urlVal c % 4) * 64 + b64urlVal d]
      ++ urlsafeB64decode rest
  | _ => []

/-- `PasswordManager.get_encryption_key` from `crypto.py`: when the secret
has at most 32 characters it is right-padded with spaces to width 32 (the
f-string `f"\x7bsecret:<32\x7d"`) and sliced to 32 characters; the result of
`secret.encode()` is URL-safe base64 encoded.  Secrets longer than 32
characters are left untouched by the guard. -/
def get_encryption_key (secret : String) : List Nat :=
  let s : List Char :=
    if secret.length ≤ 32 then
      ((secret.data ++ List.replicate (32 - secret.length) ' ').take 32)
    else secret.data
  urlsafeB64encode (s.flatMap utf8Bytes)

/-- The names of the `hashlib` hash constructors whose digest method takes
no arguments, so that `hasher(data).digest()` succeeds: every member of
`hashlib.algorithms_guaranteed` except the SHAKE extendable-output
functions. -/
def hashlib_fixed_hash_names : List String :=
  ["md5", "sha1", "sha224", "sha256", "sha384", "sha512",
   "blake2b", "blake2s",
   "sha3_224", "sha3_256", "sha3_384", "sha3_512"]

/-- The SHAKE extendable-output constructors: attributes of `hashlib` and
members of `algorithms_guaranteed`, but their `digest()` method requires a
mandatory length argument, so the key-derivation line
`hasher(key_salt + secret).digest()` of `salted_hmac` raises `TypeError`
on them. -/
def hashlib_shake_names : List String :=
  ["shake_128", "shake_256"]

/-- `hashlib.algorithms_guaranteed`: every hash constructor name the
`hashlib` module guarantees as an attribute. -/
def hashlib_hash_names : List String :=
  hashlib_fixed_hash_names ++ hashlib_shake_names

/-- The non-constructor attributes every `hashlib` module version has.
The full set of attributes a running interpreter exposes also holds
platform- and version-dependent names (`scrypt` on OpenSSL-backed builds,
`file_digest` on Python 3.11+, dunder attributes such as `__name__`), so
`salted_hmac` below is parametric in the complete list and this constant
only provides unconditional members for concrete instantiations. -/
def hashlib_base_other_attrs : List String :=
  ["new", "pbkdf2_hmac", "algorithms_guaranteed", "algorithms_available"]

/-- The errors `salted_hmac` can surface: the distinguished
`InvalidAlgorithm` (a `ValueError` subclass raised when
`getattr(hashlib, algorithm)` raises `AttributeError`), or some other
exception raised after the attribute lookup succeeded: a `TypeError` from
calling a non-constructor attribute as a hash constructor, or a
`TypeError` from `digest()` on a SHAKE object, which requires a length
argument. -/
inductive CryptoError where
  | invalidAlgorithm (msg : String)
  | otherError
deriving DecidableEq, Repr

/-- `salted_hmac(key_salt, value, secret=None, algorithm="sha1")` from
`crypto.py`, parametric in the map `impl` assigning a hash implementation
to each `hashlib` constructor name, in the list `otherAttrs` of the
remaining attributes of the `hashlib` module on the running platform
(non-constructor names such as those of `hashlib_base_other_attrs`, plus
platform-dependent ones and dunders), and in `secret_key` standing for
`settings.SECRET_KEY`.  An absent secret is replaced by `secret_key`;
`key_salt` and `secret` are canonicalized with `force_bytes`;
`getattr(hashlib, algorithm)` is resolved: a name that is no attribute at
all raises `AttributeError`, turned into `InvalidAlgorithm`.  For a
fixed-digest constructor the derived key is
`hasher(key_salt + secret).digest()` and the result is
`hmac.new(key, force_bytes(value), hasher)`; for a SHAKE constructor that
same `digest()` call raises `TypeError` (mandatory length argument); for
any other attribute, calling it as a hash constructor fails with an error
that is likewise not `InvalidAlgorithm`. -/
def salted_hmac (impl : String → HashFn) (otherAttrs : List String)
    (key_salt value : PyData) (secret : Option PyData) (algorithm : String)
    (secret_key : PyData) : Except CryptoError (List Nat) :=
  let secret := secret.getD secret_key
  let ks := force_bytes key_salt
  let sb := force_bytes secret
  if algorithm ∈ hashlib_fixed_hash_names then
    let H := impl algorithm
    let key := H.hash (ks ++ sb)
    .ok (hmacNew H key (force_bytes value))
  else if algorithm ∈ hashlib_shake_names then
    .error .otherError
  else if algorithm ∈ otherAttrs then
    .error .otherError
  else
    .error (.invalidAlgorithm
      (algorithm ++ " is not an algorithm accepted by the hashlib module."))

/-- `constant_time_compare(val1, val2)` from `crypto.py`:
`secrets.compare_digest(force_bytes(val1), force_bytes(val2))`, i.e. byte
equality of the canonical byte representations. -/
def constant_time_compare (val1 val2 : PyData) : Bool :=
  force_bytes val1 == force_bytes val2

/-- The four-byte big-endian encoding of a block index, `INT(i)` of
RFC 2898 as used by `hashlib.pbkdf2_hmac`. -/
def intBE4 (i : Nat) : List Nat :=
  [(i / 16777216) % 256, (i / 65536) % 256, (i / 256) % 256, i % 256]

/-- Bytewise xor of two byte strings of equal length. -/
def xorBytes (a b : List Nat) : List Nat :=
  List.zipWith Nat.xor a b

/-- The iteration loop of `F` in PBKDF2: given `U_j` and the running xor,
compute `U_(j+1) = HMAC(password, U_j)` and fold it in, `k` more times. -/
def pbkdf2Fgo (H : HashFn) (password : List Nat) :
    Nat → List Nat → List Nat → List Nat
  | 0, _, acc => acc
  | k + 1, u, acc =>
      let u2 := hmacNew H password u
      pbkdf2Fgo H password k u2 (xorBytes acc u2)

/-- `F(password, salt, c, i)` of RFC 2898:
`U_1 ⊕ … ⊕ U_c` with `U_1 = HMAC(password, salt ++ INT(i))`. -/
def pbkdf2F (H : HashFn) (password salt : List Nat) (c i : Nat) : List Nat :=
  let u1 := hmacNew H password (salt ++ intBE4 i)
  pbkdf2Fgo H password (c - 1) u1 u1

/-- `hashlib.pbkdf2_hmac(hash_name, password, salt, iterations, dklen)`:
the PBKDF2 derived key of RFC 2898, `T_1 ++ T_2 ++ …` truncated to `dklen`
bytes, where a `dklen` of `None` means the digest size of the hash. -/
def pbkdf2_hmac (H : HashFn) (password salt : List Nat) (iterations : Nat)
    (dklen : Option Nat) : List Nat :=
  let hLen := H.digestSize
  let dk := dklen.getD hLen
  let blocks := (dk + hLen - 1) / hLen
  (((List.range blocks).map
      (fun i => pbkdf2F H password salt iterations (i + 1))).flatten).take dk

/-- `pbkdf2(password, salt, iterations, dklen=0, digest=None)` from
`crypto.py`, with `sha256impl` the implementation of the default
`hashlib.sha256`: `dklen = dklen or None` turns 0 into `None`, password and
salt are canonicalized with `force_bytes`, and `hashlib.pbkdf2_hmac` does
the derivation. -/
def pbkdf2 (sha256impl : HashFn) (password salt : PyData) (iterations : Nat)
    (dklen : Nat) (digest : Option HashFn) : List Nat :=
  let H := digest.getD sha256impl
  let dk : Option Nat := if dklen = 0 then none else some dklen
  pbkdf2_hmac H (force_bytes password) (force_bytes salt) iterations dk

/-- `RANDOM_STRING_CHARS` from `crypto.py`: the default alphabet of
`get_random_string`. -/
def RANDOM_STRING_CHARS : List Char :=
  "abcdefghijklmnopqrstuvwxyzABCDEFGHIJKLMNOPQRSTUVWXYZ0123456789".data

/-- The fixed alphabet of `get_random_secret_key` (local `chars` in
`crypto.py`): lowercase letters, digits and a punctuation subset. -/
def secret_key_chars : List Char :=
  "abcdefghijklmnopqrstuvwxyz0123456789!@#$%^&*(-_=+)".data

/-- The sequential joining loop of `get_random_string`: `n` remaining
characters, the `i`-th call of `secrets.choice(allowed_chars)` returning
`allowed_chars[r i]` where `r i` is the value `secrets._randbelow` produced
for that call; indexing an empty alphabet raises `IndexError`, modelled as
`none`. -/
def grsAux (chars : List Char) (r : Nat → Nat) : Nat → Nat → Option (List Char)
  | _, 0 => some []
  | i, n + 1 =>
      match chars.get? (r i), grsAux chars r (i + 1) n with
      | some c, some rest => some (c :: rest)
      | _, _ => none

/-- `get_random_string(length, allowed_chars=RANDOM_STRING_CHARS)` from
`crypto.py`: `"".join(secrets.choice(allowed_chars) for i in range(length))`,
parametric in the stream `r` of random indices produced by the secure random
source; `range(length)` of a non-positive `length` is empty. -/
def get_random_string (length : Int) (allowed_chars : List Char)
    (r : Nat → Nat) : Option (List Char) :=
  grsAux allowed_chars r 0 length.toNat

/-- `get_random_secret_key(length)` from `crypto.py`:
`get_random_string(length, chars)` with its fixed alphabet. -/
def get_random_secret_key (length : Int) (r : Nat → Nat) :
    Option (List Char) :=
  get_random_string length secret_key_chars r

/-- Modelled from the spec: a hash scheme of the underlying password
hashing library (passlib, an external collaborator not among the reviewed
sources): "a named algorithm + parameter set"; hashing a password under a
salt produces a digest (spec §3 HashScheme, PasswordHash). -/
structure HashScheme where
  digest : List Nat → String → List Nat

/-- Modelled from the spec: a `PasswordHash`, "a self-describing encoded
string produced by a scheme, containing algorithm identifier, parameters,
salt, and digest" (spec §3). -/
structure PHash where
  scheme : String
  salt : List Nat
  digest : List Nat
deriving DecidableEq

/-- Modelled from the spec: the passlib `CryptContext`, "an ordered list of
acceptable schemes; the first is the current/preferred scheme, others are
accepted for verification only" (spec §3, §4.5). -/
structure CryptContext where
  schemes : List (String × HashScheme)

/-- Modelled from the spec: `CryptContext.hash` computes a hash of the
password under the preferred (first) scheme, with a salt drawn from the
secure random source (spec §4.5 hash). -/
def CryptContext.hashPwd (ctx : CryptContext) (salt : List Nat)
    (password : String) : Option PHash :=
  ctx.schemes.head?.map (fun ns => ⟨ns.1, salt, ns.2.digest salt password⟩)

/-- Modelled from the spec: `CryptContext.verify` "re-derives a hash from
the plain password using the scheme embedded in the hash and compares"
(spec §4.5 verify); a hash under an unknown scheme never verifies. -/
def CryptContext.verifyPwd (ctx : CryptContext) (password : String)
    (h : PHash) : Bool :=
  match ctx.schemes.lookup h.scheme with
  | some sch => h.digest == sch.digest h.salt password
  | none => false

/-- Modelled from the spec: `CryptContext.verify_and_update` verifies, and
when the hash was produced under a deprecated (non-preferred) scheme and
matched, additionally returns a fresh hash under the preferred scheme; "if
`password_hash` is null/absent, treated as no match, nothing to update
rather than an error" (spec §4.5 verify_and_update, §7). -/
def CryptContext.verify_and_update (ctx : CryptContext) (password : String)
    (password_hash : Option PHash) (newSalt : List Nat) :
    Bool × Option PHash :=
  match password_hash with
  | none => (false, none)
  | some h =>
      if ctx.verifyPwd password h then
        (true, if ctx.schemes.head?.map Prod.fst = some h.scheme then none
               else ctx.hashPwd newSalt password)
      else (false, none)

/-- `PasswordManager.get_password_hash` from `crypto.py`: delegates
`self.context.hash(password)` to an executor; the functional result is the
hash computed by the context under the preferred scheme. -/
def PasswordManager.get_password_hash (ctx : CryptContext) (salt : List Nat)
    (password : String) : Option PHash :=
  ctx.hashPwd salt password

/-- `PasswordManager.verify_password` from `crypto.py`: runs
`self.context.verify_and_update(plain_password, hashed_password)` in an
executor and returns `bool(valid)`, discarding the updated hash. -/
def PasswordManager.verify_password (ctx : CryptContext)
    (plain_password : String) (hashed_password : PHash)
    (newSalt : List Nat) : Bool :=
  (ctx.verify_and_update plain_password (some hashed_password) newSalt).1

/-- `PasswordManager.verify_and_update` from `crypto.py`: returns
`self.context.verify_and_update(password, password_hash)` unchanged. -/
def PasswordManager.verify_and_update (ctx : CryptContext)
    (password : String) (password_hash : Option PHash)
    (newSalt : List Nat) : Bool × Option PHash :=
  ctx.verify_and_update password password_hash newSalt

/-- A concrete well-formed hash implementation used to instantiate the
parametric theorems at witnesses: digest size 32, block size 64. -/
def toyHash : HashFn :=
  ⟨fun m => List.replicate 32 ((m.foldl (· + ·) 0) % 256), 32, 64⟩

/-- A concrete hash scheme used to instantiate the parametric theorems at
witnesses; its digest determines the password, so it is collision free. -/
def idScheme : HashScheme :=
  ⟨fun s a => s ++ a.data.map Char.toNat⟩

end Fimbu

namespace Fimbu

/-! Helper lemmas shared by the claim theorems and their witnesses. -/

/-- The witness hash implementation is well formed. -/
theorem toyHash_wf : toyHash.WF :=
  fun m => by simp [toyHash]

/-- An HMAC digest of a well-formed hash has the digest size of the hash. -/
theorem hmacNew_length (H : HashFn) (hwf : H.WF) (key msg : List Nat) :
    (hmacNew H key msg).length = H.digestSize := by
  unfold hmacNew
  exact hwf _

/-- The xor-folding loop of PBKDF2 preserves the digest size of the
accumulator. -/
theorem pbkdf2Fgo_length (H : HashFn) (hwf : H.WF) (password : List Nat) :
    ∀ (k : Nat) (u acc : List Nat), acc.length = H.digestSize →
      (pbkdf2Fgo H password k u acc).length = H.digestSize := by
  intro k
  induction k with
  | zero => intro u acc h; exact h
  | succ k ih =>
      intro u acc h
      have h2 := hmacNew_length H hwf password u
      simp only [pbkdf2Fgo]
      apply ih
      rw [xorBytes, List.length_zipWith, h, h2]
      exact Nat.min_self _

/-- Every PBKDF2 block of a well-formed hash has the digest size. -/
theorem pbkdf2F_length (H : HashFn) (hwf : H.WF) (password salt : List Nat)
    (c i : Nat) : (pbkdf2F H password salt c i).length = H.digestSize := by
  unfold pbkdf2F
  exact pbkdf2Fgo_length H hwf password _ _ _ (hmacNew_length H hwf password _)

/-- `hashlib.pbkdf2_hmac` with an absent `dklen` produces exactly the
digest size of the hash. -/
theorem pbkdf2_hmac_none_length (H : HashFn) (hwf : H.WF)
    (hd : 0 < H.digestSize) (password salt : List Nat) (iterations : Nat) :
    (pbkdf2_hmac H password salt iterations none).length = H.digestSize := by
  unfold pbkdf2_hmac
  simp only [Option.getD]
  have hb : (H.digestSize + H.digestSize - 1) / H.digestSize = 1 :=
    Nat.div_eq_of_lt_le (by omega) (by omega)
  rw [hb]
  have hr : List.range 1 = [0] := rfl
  rw [hr, List.map_cons, List.map_nil, List.flatten, List.flatten_nil,
    List.append_nil, List.length_take,
    pbkdf2F_length H hwf password salt iterations 1]
  exact Nat.min_self _

/-- Mapping characters to their code points is injective. -/
theorem charCodes_inj : ∀ (l1 l2 : List Char),
    l1.map Char.toNat = l2.map Char.toNat → l1 = l2
  | [], [] => fun _ => rfl
  | [], _ :: _ => fun h => by simp at h
  | _ :: _, [] => fun h => by simp at h
  | c :: t1, d :: t2 => fun h => by
      rw [List.map_cons, List.map_cons] at h
      injection h with h1 h2
      have hcd : c = d := by
        have h3 := congrArg Char.ofNat h1
        rwa [Char.ofNat_toNat, Char.ofNat_toNat] at h3
      rw [hcd, charCodes_inj t1 t2 h2]

/-- The witness scheme digest determines the password. -/
theorem idScheme_inj :
    ∀ (s : List Nat) (a b : String),
      idScheme.digest s a = idScheme.digest s b → a = b := by
  intro s a b h
  simp only [idScheme] at h
  have h2 := List.append_cancel_left h
  have h3 := charCodes_inj _ _ h2
  cases a; cases b; exact congrArg String.mk h3

/-- Claim C1: the claim states that for every input secret string, of any
length, `get_encryption_key(secret)` returns a URL-safe base64 string that
decodes to exactly 32 bytes, the secret having been right-padded with
spaces and truncated to 32 characters before encoding.  The code only pads
and truncates inside the `len(secret) <= 32` guard, so a 33-character
secret is base64-encoded untruncated and decodes to 33 bytes, not 32: the
padding-and-truncation the claim (and the dead `[:32]` slice in the code)
intends is skipped exactly when truncation would matter. -/
theorem get_encryption_key_long_secret :
    (urlsafeB64decode
      (get_encryption_key (String.mk (List.replicate 33 'a')))).length = 33 := by
  decide

/-- Claim C4: `constant_time_compare(x, x)` is true for every value `x`,
and `constant_time_compare(x, y)` is false for every pair whose canonical
byte representations differ, including operands of differing lengths. -/
theorem constant_time_compare_correct (x y : PyData)
    (h : force_bytes x ≠ force_bytes y) :
    constant_time_compare x x = true ∧ constant_time_compare x y = false := by
  constructor
  · simp [constant_time_compare]
  · simp [constant_time_compare, h]

/-- Witness for claim C4, at operands of differing lengths. -/
theorem constant_time_compare_correct_witness :
    constant_time_compare (.str "ab") (.str "ab") = true ∧
      constant_time_compare (.str "ab") (.bytes [97]) = false :=
  constant_time_compare_correct (.str "ab") (.bytes [97]) (by decide)

/-- Claim C5: `pbkdf2` is deterministic: two calls with identical
password, salt, iteration count, dklen and digest yield identical output
bytes.  The embedded function is pure, mirroring the source, which calls no
random source. -/
theorem pbkdf2_deterministic (sha256impl : HashFn) (password salt : PyData)
    (iterations dklen : Nat) (digest : Option HashFn) :
    pbkdf2 sha256impl password salt iterations dklen digest =
      pbkdf2 sha256impl password salt iterations dklen digest := rfl

/-- Claim C9: for every password, `verify_and_update` with an absent
password hash returns the benign no-match result `(False, None)` without
raising any error. -/
theorem verify_and_update_none_hash (ctx : CryptContext) (password : String)
    (newSalt : List Nat) :
    PasswordManager.verify_and_update ctx password none newSalt =
      (false, none) := rfl

/-- Claim C2, counterexample: the string `"pbkdf2_hmac"` does not name a
hash function supported by hashlib, yet `salted_hmac` does not raise
`InvalidAlgorithm` on it: `getattr(hashlib, "pbkdf2_hmac")` succeeds (it is
a module attribute), so the `AttributeError` handler is skipped and the
later call `hasher(key_salt + secret)` fails with a different error
(`CryptoError.otherError` here, a `TypeError` in Python), refuting both
"raises InvalidAlgorithm for every unsupported name" and "InvalidAlgorithm
is the only expected failure". -/
theorem salted_hmac_pbkdf2_hmac_attr :
    salted_hmac (fun _ => toyHash) hashlib_base_other_attrs (.str "salt")
      (.str "value") none "pbkdf2_hmac" (.str "secret") =
      .error .otherError := rfl

/-- Claim C2, amended: for every list of remaining platform attributes,
`salted_hmac` raises `InvalidAlgorithm` exactly when the algorithm name is
not an attribute of the hashlib module.  Fixed-digest hash-constructor
names never raise; every other attribute passes the lookup and fails later
with an error that is not `InvalidAlgorithm`: the SHAKE constructors at
the `digest()` call of the key derivation, non-constructor attributes
(such as `"pbkdf2_hmac"` or `"new"`) when called as a constructor. -/
theorem salted_hmac_algorithm_resolution (impl : String → HashFn)
    (otherAttrs : List String) (key_salt value secret_key : PyData)
    (algorithm : String) :
    (algorithm ∉ hashlib_fixed_hash_names →
      algorithm ∉ hashlib_shake_names → algorithm ∉ otherAttrs →
      salted_hmac impl otherAttrs key_salt value none algorithm secret_key =
        .error (.invalidAlgorithm
          (algorithm ++
            " is not an algorithm accepted by the hashlib module."))) ∧
    (algorithm ∈ hashlib_fixed_hash_names →
      ∃ d, salted_hmac impl otherAttrs key_salt value none algorithm
        secret_key = .ok d) ∧
    (algorithm ∈ hashlib_shake_names →
      salted_hmac impl otherAttrs key_salt value none algorithm secret_key =
        .error .otherError) ∧
    (algorithm ∈ otherAttrs → algorithm ∉ hashlib_fixed_hash_names →
      algorithm ∉ hashlib_shake_names →
      salted_hmac impl otherAttrs key_salt value none algorithm secret_key =
        .error .otherError) := by
  refine ⟨fun h1 h2 h3 => ?_, fun h1 => ?_, fun h1 => ?_, fun h1 h2 h3 => ?_⟩
  · simp [salted_hmac, h1, h2, h3]
  · exact ⟨hmacNew (impl algorithm)
      ((impl algorithm).hash (force_bytes key_salt ++ force_bytes secret_key))
      (force_bytes value), by simp [salted_hmac, h1]⟩
  · have h2 : algorithm ∉ hashlib_fixed_hash_names := by
      intro hmem
      revert h1
      fin_cases hmem <;> decide
    simp [salted_hmac, h1, h2]
  · simp [salted_hmac, h1, h2, h3]

/-- Witness for claim C2: an unknown name raises `InvalidAlgorithm`, a
fixed-digest hash-function name succeeds, a SHAKE name fails with the
non-`InvalidAlgorithm` error. -/
theorem salted_hmac_algorithm_resolution_witness :
    (salted_hmac (fun _ => toyHash) hashlib_base_other_attrs (.str "s")
        (.str "v") none "md4" (.str "k") =
      .error (.invalidAlgorithm
        ("md4" ++ " is not an algorithm accepted by the hashlib module."))) ∧
    (∃ d, salted_hmac (fun _ => toyHash) hashlib_base_other_attrs (.str "s")
        (.str "v") none "sha1" (.str "k") = .ok d) ∧
    (salted_hmac (fun _ => toyHash) hashlib_base_other_attrs (.str "s")
        (.str "v") none "shake_128" (.str "k") = .error .otherError) :=
  ⟨(salted_hmac_algorithm_resolution (fun _ => toyHash)
      hashlib_base_other_attrs (.str "s") (.str "v") (.str "k") "md4").1
      (by decide) (by decide) (by decide),
   (salted_hmac_algorithm_resolution (fun _ => toyHash)
      hashlib_base_other_attrs (.str "s") (.str "v") (.str "k") "sha1").2.1
      (by decide),
   (salted_hmac_algorithm_resolution (fun _ => toyHash)
      hashlib_base_other_attrs (.str "s") (.str "v") (.str "k")
      "shake_128").2.2.1 (by decide)⟩

/-- Claim C3, counterexample: `"shake_128"` names a hash function
supported by hashlib (a member of `algorithms_guaranteed`), but
`salted_hmac` does not return an HMAC digest for it: the key-derivation
line `hasher(key_salt + secret).digest()` raises `TypeError`, because the
SHAKE digest method requires a mandatory length argument, so the claim
universally quantified over supported algorithms fails here. -/
theorem salted_hmac_shake_no_hmac :
    "shake_128" ∈ hashlib_hash_names ∧
    salted_hmac (fun _ => toyHash) hashlib_base_other_attrs (.str "s")
      (.str "v") none "shake_128" (.str "k") = .error .otherError :=
  ⟨by decide, rfl⟩

/-- Claim C3, amended: for every key salt, value, secret and supported
fixed-digest algorithm (every guaranteed hashlib algorithm except the
SHAKE pair, whose key-derivation `digest()` call raises `TypeError`
instead), `salted_hmac` returns the HMAC under that algorithm of the
canonical bytes of the value, keyed by
`hash(key_salt_bytes + secret_bytes)`, and an absent secret resolves to
the process-wide `settings.SECRET_KEY`. -/
theorem salted_hmac_spec (impl : String → HashFn) (otherAttrs : List String)
    (key_salt value secret_key : PyData) (algorithm : String)
    (h : algorithm ∈ hashlib_fixed_hash_names) :
    salted_hmac impl otherAttrs key_salt value none algorithm secret_key =
      .ok (hmacNew (impl algorithm)
        ((impl algorithm).hash (force_bytes key_salt ++ force_bytes secret_key))
        (force_bytes value)) ∧
    ∀ secret,
      salted_hmac impl otherAttrs key_salt value (some secret) algorithm
          secret_key =
        .ok (hmacNew (impl algorithm)
          ((impl algorithm).hash (force_bytes key_salt ++ force_bytes secret))
          (force_bytes value)) := by
  constructor
  · simp [salted_hmac, h]
  · intro secret
    simp [salted_hmac, h]

/-- Witness for claim C3, at the algorithm name `"sha1"`. -/
theorem salted_hmac_spec_witness :
    salted_hmac (fun _ => toyHash) hashlib_base_other_attrs (.str "s")
        (.str "v") none "sha1" (.str "k") =
      .ok (hmacNew toyHash
        (toyHash.hash (force_bytes (.str "s") ++ force_bytes (.str "k")))
        (force_bytes (.str "v"))) :=
  (salted_hmac_spec (fun _ => toyHash) hashlib_base_other_attrs (.str "s")
    (.str "v") (.str "k") "sha1" (by decide)).1

/-- Claim C6: `pbkdf2` with a `dklen` of 0 (the default) returns a derived
key whose length is the natural output length of the digest, and 32 bytes
when the digest is left unset (the default sha256). -/
theorem pbkdf2_default_dklen_length (sha256impl H : HashFn)
    (password salt : PyData) (iterations : Nat)
    (hwf : H.WF) (hd : 0 < H.digestSize) (_hn : 0 < iterations)
    (hwf2 : sha256impl.WF) (hd2 : sha256impl.digestSize = 32) :
    (pbkdf2 sha256impl password salt iterations 0 (some H)).length =
      H.digestSize ∧
    (pbkdf2 sha256impl password salt iterations 0 none).length = 32 := by
  constructor
  · simpa [pbkdf2] using
      pbkdf2_hmac_none_length H hwf hd (force_bytes password)
        (force_bytes salt) iterations
  · rw [← hd2]
    simpa [pbkdf2] using
      pbkdf2_hmac_none_length sha256impl hwf2 (by omega)
        (force_bytes password) (force_bytes salt) iterations

/-- Witness for claim C6, at one iteration of the concrete hash. -/
theorem pbkdf2_default_dklen_length_witness :
    0 < (1 : Nat) ∧
    (pbkdf2 toyHash (.str "p") (.str "s") 1 0 (some toyHash)).length =
      toyHash.digestSize ∧
    (pbkdf2 toyHash (.str "p") (.str "s") 1 0 none).length = 32 :=
  ⟨by decide,
   (pbkdf2_default_dklen_length toyHash toyHash (.str "p") (.str "s") 1
      toyHash_wf (by decide) (by decide) toyHash_wf (by decide)).1,
   (pbkdf2_default_dklen_length toyHash toyHash (.str "p") (.str "s") 1
      toyHash_wf (by decide) (by decide) toyHash_wf (by decide)).2⟩

/-- The joining loop of `get_random_string` succeeds and produces `n`
characters of the alphabet whenever every random index is in range. -/
theorem grsAux_spec (chars : List Char) (r : Nat → Nat)
    (h : ∀ i, r i < chars.length) :
    ∀ (n i : Nat), ∃ s, grsAux chars r i n = some s ∧ s.length = n ∧
      ∀ c ∈ s, c ∈ chars := by
  intro n
  induction n with
  | zero => intro i; exact ⟨[], rfl, rfl, by simp⟩
  | succ n ih =>
      intro i
      obtain ⟨s, hs, hl, hm⟩ := ih (i + 1)
      have hi := h i
      have hg : chars[r i]? = some chars[r i] :=
        List.getElem?_eq_getElem hi
      refine ⟨chars[r i] :: s, ?_, by simp [hl], ?_⟩
      · simp only [grsAux, List.get?_eq_getElem?, hg, hs]
      · intro c hc
        rcases List.mem_cons.mp hc with hc1 | hc1
        · rw [hc1]; exact List.getElem_mem hi
        · exact hm c hc1

/-- Claim C7: for every length and every random stream whose indices are in
range (the contract of `secrets._randbelow` for a non-empty alphabet),
`get_random_string(length, allowed_chars)` returns exactly `length`
characters, each a member of `allowed_chars`, and `get_random_secret_key`
satisfies the same property with its fixed alphabet of lowercase letters,
digits and a punctuation subset. -/
theorem get_random_string_spec (length : Nat) (allowed_chars : List Char)
    (r r2 : Nat → Nat) (h : ∀ i, r i < allowed_chars.length)
    (h2 : ∀ i, r2 i < secret_key_chars.length) :
    (∃ s, get_random_string (length : Int) allowed_chars r = some s ∧
      s.length = length ∧ ∀ c ∈ s, c ∈ allowed_chars) ∧
    (∃ t, get_random_secret_key (length : Int) r2 = some t ∧
      t.length = length ∧ ∀ c ∈ t, c ∈ secret_key_chars) := by
  constructor
  · obtain ⟨s, hs, hl, hm⟩ := grsAux_spec allowed_chars r h length 0
    exact ⟨s, by simpa [get_random_string] using hs, hl, hm⟩
  · obtain ⟨t, ht, hl, hm⟩ := grsAux_spec secret_key_chars r2 h2 length 0
    exact ⟨t, by simpa [get_random_secret_key, get_random_string] using ht,
      hl, hm⟩

/-- Witness for claim C7, at length 3 and the default alphabet. -/
theorem get_random_string_spec_witness :
    (∃ s, get_random_string ((3 : Nat) : Int) RANDOM_STRING_CHARS
        (fun i => i % 62) = some s ∧
      s.length = 3 ∧ ∀ c ∈ s, c ∈ RANDOM_STRING_CHARS) ∧
    (∃ t, get_random_secret_key ((3 : Nat) : Int) (fun i => i % 50) =
        some t ∧
      t.length = 3 ∧ ∀ c ∈ t, c ∈ secret_key_chars) :=
  get_random_string_spec 3 RANDOM_STRING_CHARS (fun i => i % 62)
    (fun i => i % 50)
    (fun i => by
      have h62 : RANDOM_STRING_CHARS.length = 62 := rfl
      rw [h62]; exact Nat.mod_lt _ (by omega))
    (fun i => by
      have h50 : secret_key_chars.length = 50 := rfl
      rw [h50]; exact Nat.mod_lt _ (by omega))

/-- Claim C10: `get_random_string` imposes no positivity precondition on
the length: for a length of 0 or any negative integer, `range(length)` is
empty, so the result is the empty string, no error is raised, and no
entropy is consumed (the result does not depend on the random stream). -/
theorem get_random_string_nonpositive_length (length : Int)
    (allowed_chars : List Char) (r r2 : Nat → Nat) (h : length ≤ 0) :
    get_random_string length allowed_chars r = some [] ∧
    get_random_string length allowed_chars r =
      get_random_string length allowed_chars r2 := by
  have ht : length.toNat = 0 := Int.toNat_of_nonpos h
  constructor
  · simp [get_random_string, ht, grsAux]
  · simp [get_random_string, ht, grsAux]

/-- Witness for claim C10, at length -1 and an empty alphabet. -/
theorem get_random_string_nonpositive_length_witness :
    (-1 : Int) ≤ 0 ∧
    (get_random_string (-1) [] (fun i => i) = some [] ∧
     get_random_string (-1) [] (fun i => i) =
       get_random_string (-1) [] (fun i => i + 7)) :=
  ⟨by decide,
   get_random_string_nonpositive_length (-1) [] (fun i => i)
     (fun i => i + 7) (by decide)⟩

/-- Claim C8: for every password `p`, verifying `p` against the hash the
manager produced for `p` returns true, and verifying any different
password against that hash returns false, for any context whose preferred
scheme has a collision-free digest (the idealization the spec makes of the
underlying hashing library). -/
theorem hash_verify_roundtrip (name : String) (sch : HashScheme)
    (rest : List (String × HashScheme)) (salt salt2 : List Nat)
    (p pw : String)
    (hinj : ∀ s a b, sch.digest s a = sch.digest s b → a = b)
    (hne : pw ≠ p) :
    PasswordManager.get_password_hash ⟨(name, sch) :: rest⟩ salt p =
      some ⟨name, salt, sch.digest salt p⟩ ∧
    PasswordManager.verify_password ⟨(name, sch) :: rest⟩ p
      ⟨name, salt, sch.digest salt p⟩ salt2 = true ∧
    PasswordManager.verify_password ⟨(name, sch) :: rest⟩ pw
      ⟨name, salt, sch.digest salt p⟩ salt2 = false := by
  refine ⟨rfl, ?_, ?_⟩
  · simp [PasswordManager.verify_password, CryptContext.verify_and_update,
      CryptContext.verifyPwd, List.lookup]
  · have hd : sch.digest salt p ≠ sch.digest salt pw := by
      intro he
      exact hne (hinj salt pw p he.symm)
    simp [PasswordManager.verify_password, CryptContext.verify_and_update,
      CryptContext.verifyPwd, List.lookup, hd]

/-- Witness for claim C8, at the collision-free witness scheme. -/
theorem hash_verify_roundtrip_witness :
    ("b" ≠ "a") ∧
    (PasswordManager.get_password_hash ⟨[("argon2", idScheme)]⟩ [1, 2] "a" =
      some ⟨"argon2", [1, 2], idScheme.digest [1, 2] "a"⟩ ∧
    PasswordManager.verify_password ⟨[("argon2", idScheme)]⟩ "a"
      ⟨"argon2", [1, 2], idScheme.digest [1, 2] "a"⟩ [3] = true ∧
    PasswordManager.verify_password ⟨[("argon2", idScheme)]⟩ "b"
      ⟨"argon2", [1, 2], idScheme.digest [1, 2] "a"⟩ [3] = false) :=
  ⟨by decide,
   hash_verify_roundtrip "argon2" idScheme [] [1, 2] [3] "a" "b"
     idScheme_inj (by decide)⟩

end Fimbu
